import Mathlib

/-!
Verification of the c3edit client (src/client.rs) against its
natural-language specification.

The client is a peer-to-peer collaborative text editor backend: a single
event loop owns a CRDT document (the loro merge engine), applies edit
commands arriving on stdin, broadcasts exported document bytes to peer
sockets, imports bytes received from peers, and surfaces import-triggered
merge diffs back to the application as Change events.

The embedding below is shallow: each handler of client.rs becomes a pure
Lean function from its inputs (plus an oracle for network/dial outcomes)
to its resulting state together with the ordered list of channel sends it
performs.  A Rust panic (an `unwrap` of an error) is modelled as `none`.
The loro merge engine is external to the repository; it is modelled from
the description in the specification of the minimal merge-engine capability
surface (spec section 6), with document text as a list of characters,
export payloads as the structured list of operations they encode, and a
version vector as an operation counter.
-/

namespace C3edit

/-- Modelled from the spec: one retain/insert/delete span of the merge
diff representation of the merge engine (loro `TextDelta`). -/
inductive TextDelta where
  | retain (retain : Nat)
  | insert (insert : List Char)
  | delete (delete : Nat)
deriving DecidableEq, Repr

/-- Modelled from the spec: the flag the merge engine passes to a
subscription callback distinguishing what triggered the merge
(loro `EventTriggerKind`). -/
inductive EventTriggerKind where
  | localEdit
  | importTrigger
  | checkout
deriving DecidableEq, Repr

/-- `EventTriggerKind::is_import` of the merge engine. -/
def EventTriggerKind.is_import : EventTriggerKind → Bool
  | .importTrigger => true
  | _ => false

/-- Modelled from the spec: a container diff delivered by the merge
engine.  A text container yields a sequence of spans; diffs of any other
container kind (list, map, tree, ...) are collapsed into `other`, since
the client only ever extracts text diffs. -/
inductive Diff where
  | text (deltas : List TextDelta)
  | other
deriving DecidableEq, Repr

/-- `Diff::as_text` of the merge engine: succeeds exactly on text diffs. -/
def Diff.as_text : Diff → Option (List TextDelta)
  | .text deltas => some deltas
  | .other => none

/-- Modelled from the spec: one container diff entry of a merge event. -/
structure ContainerDiffEvent where
  diff : Diff
deriving DecidableEq, Repr

/-- Modelled from the spec: the argument the merge engine passes to a
subscription callback (loro `DiffEvent`): the trigger flag and the list
of per-container diffs of the merge. -/
structure DiffEvent where
  triggered_by : EventTriggerKind
  events : List ContainerDiffEvent
deriving DecidableEq, Repr

/-- Modelled from the spec: one mutation recorded in the history of the document: insert text at a codepoint offset, delete a codepoint range, or
replace the whole text content. -/
inductive DocOp where
  | insert (index : Nat) (text : List Char)
  | delete (index : Nat) (len : Nat)
  | update (content : List Char)
deriving DecidableEq, Repr

/-- An exported document-update payload, modelled as the structured list
of operations the opaque bytes encode. -/
abbrev Bytes : Type := List DocOp

/-- Modelled from the spec: a merge-engine version vector, reduced to an
operation counter; the `Default::default()` version vector is counter 0,
so exporting from it yields the full history since creation. -/
structure VersionVector where
  counter : Nat
deriving DecidableEq, Repr

instance : Inhabited VersionVector := ⟨⟨0⟩⟩

/-- Modelled from the spec: the merge-engine error for a rejected
operation, e.g. an out-of-range index. -/
inductive LoroError where
  | outOfRange
deriving DecidableEq, Repr

/-- Text insertion as the merge engine defines it: insert `t` at
codepoint offset `index`, rejected when `index` exceeds the text
length. -/
def textInsert (s : List Char) (index : Nat) (t : List Char) :
    Except LoroError (List Char) :=
  if index ≤ s.length then
    .ok (s.take index ++ t ++ s.drop index)
  else
    .error .outOfRange

/-- Text deletion as the merge engine defines it: delete `len` codepoints
starting at offset `index`, rejected when the range exceeds the text. -/
def textDelete (s : List Char) (index len : Nat) :
    Except LoroError (List Char) :=
  if index + len ≤ s.length then
    .ok (s.take index ++ s.drop (index + len))
  else
    .error .outOfRange

/-- Modelled from the spec: the merge-engine document (loro `LoroDoc`),
reduced to its text content and its operation history since creation. -/
structure LoroDoc where
  text : List Char
  oplog : List DocOp
deriving DecidableEq, Repr

/-- `LoroDoc::new()`: an empty document with empty history. -/
def LoroDoc.new : LoroDoc := { text := [], oplog := [] }

/-- The text insert of the merge engine: on success the text is mutated and
one operation is appended to the history. -/
def LoroDoc.insertText (d : LoroDoc) (index : Nat) (t : List Char) :
    Except LoroError LoroDoc :=
  match textInsert d.text index t with
  | .error e => .error e
  | .ok s => .ok { text := s, oplog := d.oplog ++ [DocOp.insert index t] }

/-- The text delete of the merge engine: on success the text is mutated and
one operation is appended to the history. -/
def LoroDoc.deleteText (d : LoroDoc) (index len : Nat) :
    Except LoroError LoroDoc :=
  match textDelete d.text index len with
  | .error e => .error e
  | .ok s => .ok { text := s, oplog := d.oplog ++ [DocOp.delete index len] }

/-- The `update` operation of the merge engine: replace the text content wholesale. -/
def LoroDoc.updateText (d : LoroDoc) (content : List Char) : LoroDoc :=
  { text := content, oplog := d.oplog ++ [DocOp.update content] }

/-- `LoroDoc::export_from(vv)`: the operations after the version vector;
from the default (empty) version vector this is the full history. -/
def LoroDoc.export_from (d : LoroDoc) (vv : VersionVector) : Bytes :=
  d.oplog.drop vv.counter

/-- Applying one foreign operation during an import; a CRDT merge is
total, so an operation that does not fit the current text is resolved
rather than rejected. -/
def applyOp (s : List Char) : DocOp → List Char
  | .insert index t =>
      if index ≤ s.length then s.take index ++ t ++ s.drop index else s
  | .delete index len =>
      if index + len ≤ s.length then s.take index ++ s.drop (index + len) else s
  | .update content => content

/-- Modelled from the spec: `LoroDoc::import`, merging a foreign update
payload into the document. -/
def LoroDoc.import (d : LoroDoc) (data : Bytes) : LoroDoc :=
  { text := data.foldl applyOp d.text, oplog := d.oplog ++ data }

/- ### The application control protocol (client.rs lines 32 to 48) -/

/-- `Change` of client.rs: one edit, ingress (a command) or egress (a
surfaced peer edit). -/
inductive Change where
  | insert (index : Nat) (text : List Char)
  | delete (index : Nat) (len : Nat)
deriving DecidableEq, Repr

/-- `ClientMessage` of client.rs: the application control protocol. -/
inductive ClientMessage where
  | addPeer (address : String)
  | peerAdded (address : String)
  | createDocument (initial_content : List Char)
  | change (change : Change)
deriving DecidableEq, Repr

/-- `BackendMessage` of client.rs: the peer wire protocol. -/
inductive BackendMessage where
  | documentSync (data : Bytes)
deriving DecidableEq, Repr

/- ### Sockets and channels -/

/-- A TCP stream, reduced to an identifying token. -/
structure TcpStream where
  id : Nat
deriving DecidableEq, Repr

/-- The read half produced by `TcpStream::into_split`. -/
structure OwnedReadHalf where
  id : Nat
deriving DecidableEq, Repr

/-- The write half produced by `TcpStream::into_split`. -/
structure OwnedWriteHalf where
  id : Nat
deriving DecidableEq, Repr

/-- `TcpStream::into_split`. -/
def TcpStream.into_split (s : TcpStream) : OwnedReadHalf × OwnedWriteHalf :=
  (⟨s.id⟩, ⟨s.id⟩)

/-- `ReadSocket` of client.rs: a length-delimited JSON-framed read half. -/
structure ReadSocket where
  inner : OwnedReadHalf
deriving DecidableEq, Repr

/-- `WriteSocket` of client.rs: a length-delimited JSON-framed write half. -/
structure WriteSocket where
  inner : OwnedWriteHalf
deriving DecidableEq, Repr

/-- `OutgoingMessage` of the channels module, as used by client.rs: the
two event kinds the Outbound Sync Broadcaster receives on its queue. -/
inductive OutgoingMessage where
  | newSocket (socket : WriteSocket)
  | documentData (data : Bytes)
deriving DecidableEq, Repr

/-- One observable channel send performed by a coordinator handler, in
program order: a log line for a protocol violation, a read-half
registration with the Inbound Sync Router, an enqueue to the Outbound
Sync Broadcaster, or an enqueue to the Control Gateway egress task. -/
inductive Effect where
  | log_error (message : ClientMessage)
  | send_incoming_to (socket : ReadSocket)
  | send_outgoing (message : OutgoingMessage)
  | send_stdout (message : ClientMessage)
deriving DecidableEq, Repr

/-- `Client` of client.rs: the document and the listening socket. -/
structure Client where
  doc : LoroDoc
  listener : Nat
deriving DecidableEq, Repr

/-- `Client::new`. -/
def Client.new (listener : Nat) : Client :=
  { doc := LoroDoc.new, listener := listener }

/- ### The Change Notifier (client.rs lines 186 to 230) -/

/-- The inner span walk of `add_doc_change_subsription` (client.rs lines
197 to 215): iterate the diff spans keeping a running `index`, pushing an
emitted change onto the accumulated vector for each insert or delete
span. -/
def processDiffs : List TextDelta → Nat → List Change → List Change
  | [], _, changes => changes
  | .retain r :: rest, index, changes =>
      processDiffs rest (index + r) changes
  | .insert s :: rest, index, changes =>
      processDiffs rest index (changes ++ [Change.insert index s])
  | .delete d :: rest, index, changes =>
      processDiffs rest index (changes ++ [Change.delete index d])

/-- The body of the outer `for event in change.events` loop of the
callback (client.rs lines 193 to 216): unwrap the diff of the event as a text
diff (`none` models the panic on a non-text diff) and walk its spans
onto the accumulated change vector. -/
def notifierFoldStep (changes : List Change) (event : ContainerDiffEvent) :
    Option (List Change) := do
  let diffs ← event.diff.as_text
  pure (processDiffs diffs 0 changes)

/-- The subscription callback registered by `add_doc_change_subsription`
(client.rs lines 186 to 230), as the list of ClientMessage values the
spawned forwarding task sends to the stdout channel, in order.  `none`
models a panic (the `unwrap` of `as_text` on a non-text diff); an early
return on a non-import trigger sends nothing. -/
def add_doc_change_subsription (change : DiffEvent) :
    Option (List ClientMessage) :=
  if change.triggered_by.is_import = false then
    some []
  else do
    let changes ← change.events.foldlM notifierFoldStep []
    pure (changes.map fun c => ClientMessage.change c)

/- ### Spec-side formulation of the notifier walk -/

/-- The length contributed to the running offset by one span: a retain
span advances the offset by its length, insert and delete spans do not
advance it. -/
def retainLen : TextDelta → Nat
  | .retain r => r
  | _ => 0

/-- The running offset accumulated over a list of spans: the sum of the
retain lengths. -/
def retainOffset (deltas : List TextDelta) : Nat :=
  (deltas.map retainLen).sum

/-- The change a single span emits, given the offset accumulated before
it: retain spans emit nothing, insert and delete spans emit a change at
the given offset. -/
def specEmit (off : Nat) : TextDelta → Option Change
  | .retain _ => none
  | .insert s => some (Change.insert off s)
  | .delete n => some (Change.delete off n)

/-- Written from the words of the spec (section 4.7), as a closed form: the
span at position k, when it is an insert or delete, emits a change whose
index is the sum of the retain lengths of the spans before position k;
retain spans emit nothing; emission order is span order. -/
def specNotifierChanges (deltas : List TextDelta) : List Change :=
  (List.range deltas.length).filterMap fun k =>
    specEmit (retainOffset (deltas.take k)) (deltas.getD k (.retain 0))

/-- Shift every emitted index by a base offset. -/
def shiftChange (off : Nat) : Change → Change
  | .insert index s => .insert (off + index) s
  | .delete index n => .delete (off + index) n

/- ### The Connection Manager (client.rs lines 232 to 262) -/

/-- `accept_new_connection` (client.rs lines 232 to 262): split the
accepted stream, register the framed read half with the Inbound Sync
Router, register the framed write half with the Outbound Sync
Broadcaster, then emit the PeerAdded event; returned as the ordered list
of channel sends. -/
def accept_new_connection (socket : TcpStream) (addr : String) :
    List Effect :=
  let rw := socket.into_split
  [Effect.send_incoming_to ⟨rw.1⟩,
   Effect.send_outgoing (OutgoingMessage.newSocket ⟨rw.2⟩),
   Effect.send_stdout (ClientMessage.peerAdded addr)]

/- ### The Document Coordinator (client.rs lines 95 to 115, 264 to 333) -/

/-- `handle_stdin_message` (client.rs lines 264 to 333).  `connect` is
the network oracle for `TcpStream::connect`: `none` models a failed
dial.  The result is the updated Client together with the ordered list
of channel sends, or `none` when the code panics on an `unwrap` (a
failed dial, or a document operation the merge engine rejects). -/
def handle_stdin_message (connect : String → Option TcpStream)
    (client : Client) (message : ClientMessage) :
    Option (Client × List Effect) :=
  match message with
  | .peerAdded a =>
      some (client, [Effect.log_error (ClientMessage.peerAdded a)])
  | .addPeer address =>
      match connect address with
      | none => none
      | some socket =>
          let rw := socket.into_split
          some (client,
            [Effect.send_incoming_to ⟨rw.1⟩,
             Effect.send_outgoing (OutgoingMessage.newSocket ⟨rw.2⟩),
             Effect.send_stdout (ClientMessage.peerAdded address)])
  | .change ch =>
      match ch with
      | .insert index t =>
          match client.doc.insertText index t with
          | .error _ => none
          | .ok d =>
              some ({ client with doc := d },
                [Effect.send_outgoing (OutgoingMessage.documentData
                  (d.export_from default))])
      | .delete index len =>
          match client.doc.deleteText index len with
          | .error _ => none
          | .ok d =>
              some ({ client with doc := d },
                [Effect.send_outgoing (OutgoingMessage.documentData
                  (d.export_from default))])
  | .createDocument initial_content =>
      let d := client.doc.updateText initial_content
      some ({ client with doc := d },
        [Effect.send_outgoing (OutgoingMessage.documentData
          (d.export_from default))])

/-- The third arm of the select loop of the coordinator (client.rs lines 110
to 113): a raw update payload from the Inbound Sync Router is imported
into the document; the arm performs no channel send at all. -/
def handle_incoming_data (client : Client) (data : Bytes) :
    Client × List Effect :=
  ({ client with doc := client.doc.import data }, [])

/- ### The Outbound Sync Broadcaster (client.rs lines 136 to 158) -/

/-- One iteration of `begin_outgoing_task` (client.rs lines 140 to 155):
given the current pool of write halves and one queue message, return the
new pool and the ordered list of (socket, wire message) sends performed. -/
def outgoing_task_step (sockets : List WriteSocket) :
    OutgoingMessage → List WriteSocket × List (WriteSocket × BackendMessage)
  | .newSocket socket => (sockets ++ [socket], [])
  | .documentData data =>
      let message := BackendMessage.documentSync data
      (sockets, sockets.map fun socket => (socket, message))

/-- Running the broadcaster loop over a list of queue messages, starting
from a pool, accumulating all sends in order. -/
def outgoing_task_run (sockets : List WriteSocket) :
    List OutgoingMessage → List WriteSocket × List (WriteSocket × BackendMessage)
  | [] => (sockets, [])
  | m :: ms =>
      let step := outgoing_task_step sockets m
      let rest := outgoing_task_run step.1 ms
      (rest.1, step.2 ++ rest.2)

/- ### Ordering predicates for connection registration -/

/-- The effect is the emission of a PeerAdded egress event. -/
def isPeerAddedEmit : Effect → Bool
  | .send_stdout (.peerAdded _) => true
  | _ => false

/-- The effect registers a read half with the Inbound Sync Router. -/
def isReadRegistration : Effect → Bool
  | .send_incoming_to _ => true
  | _ => false

/-- The effect registers a write half with the Outbound Sync Broadcaster. -/
def isWriteRegistration : Effect → Bool
  | .send_outgoing (.newSocket _) => true
  | _ => false

/-- Every PeerAdded emission in the effect list is preceded by a
read-half registration and by a write-half registration. -/
def registrationsBeforePeerAdded (l : List Effect) : Prop :=
  ∀ i : Fin l.length, isPeerAddedEmit (l.get i) = true →
    (∃ j : Fin l.length, j.val < i.val ∧ isReadRegistration (l.get j) = true) ∧
    (∃ k : Fin l.length, k.val < i.val ∧ isWriteRegistration (l.get k) = true)

/- ### Helper lemmas -/

/-- A successful merge-engine insert appends exactly one operation to the
document history. -/
theorem insertText_ok_oplog (d d2 : LoroDoc) (index : Nat) (t : List Char)
    (h : d.insertText index t = .ok d2) :
    d2.oplog = d.oplog ++ [DocOp.insert index t] := by
  unfold LoroDoc.insertText at h
  cases htext : textInsert d.text index t with
  | error e => rw [htext] at h; cases h
  | ok s => rw [htext] at h; cases h; rfl

/-- A successful merge-engine delete appends exactly one operation to the
document history. -/
theorem deleteText_ok_oplog (d d2 : LoroDoc) (index len : Nat)
    (h : d.deleteText index len = .ok d2) :
    d2.oplog = d.oplog ++ [DocOp.delete index len] := by
  unfold LoroDoc.deleteText at h
  cases htext : textDelete d.text index len with
  | error e => rw [htext] at h; cases h
  | ok s => rw [htext] at h; cases h; rfl

/- ### Claim theorems -/

/-- Claim C1: for every merge event delivered by the change subscription of the merge engine, if the merge was not triggered by an import then
the Change Notifier emits no Change egress event for it;
only import-triggered merges produce Change events on the application
output. -/
theorem notifier_ignores_local_merges (change : DiffEvent)
    (h : change.triggered_by.is_import = false) :
    add_doc_change_subsription change = some [] := by
  simp [add_doc_change_subsription, h]

/-- Witness for C1 at a concrete local-edit-triggered event. -/
theorem notifier_ignores_local_merges_witness :
    (DiffEvent.mk .localEdit [⟨Diff.text [.insert ['h', 'i']]⟩]).triggered_by.is_import
        = false ∧
    add_doc_change_subsription ⟨.localEdit, [⟨Diff.text [.insert ['h', 'i']]⟩]⟩ =
      some [] :=
  ⟨by decide,
   notifier_ignores_local_merges ⟨.localEdit, [⟨Diff.text [.insert ['h', 'i']]⟩]⟩
     (by decide)⟩

/-- Claim C2: for every raw update payload received from the Inbound
Sync Router, the import arm of the coordinator imports the bytes into the
document and performs no channel send at all in that iteration — in
particular it enqueues nothing to the Outbound Sync Broadcaster, so
an import never triggers a re-broadcast. -/
theorem import_arm_no_rebroadcast (client : Client) (data : Bytes) :
    handle_incoming_data client data =
      ({ client with doc := client.doc.import data }, ([] : List Effect)) :=
  rfl

/-- Claim C3: for every ingress Change control message the merge engine
accepts, the coordinator applies exactly one document mutation (one
operation appended to the history) and enqueues exactly one exported
update payload to the Outbound Sync Broadcaster, and nothing else; the
same mutate-then-export-and-broadcast pattern holds for CreateDocument. -/
theorem change_mutate_then_broadcast :
    (∀ (connect : String → Option TcpStream) (client : Client) index t d,
      client.doc.insertText index t = .ok d →
        handle_stdin_message connect client
            (ClientMessage.change (Change.insert index t)) =
          some ({ client with doc := d },
            [Effect.send_outgoing (OutgoingMessage.documentData
              (d.export_from default))]) ∧
        d.oplog = client.doc.oplog ++ [DocOp.insert index t]) ∧
    (∀ (connect : String → Option TcpStream) (client : Client) index len d,
      client.doc.deleteText index len = .ok d →
        handle_stdin_message connect client
            (ClientMessage.change (Change.delete index len)) =
          some ({ client with doc := d },
            [Effect.send_outgoing (OutgoingMessage.documentData
              (d.export_from default))]) ∧
        d.oplog = client.doc.oplog ++ [DocOp.delete index len]) ∧
    (∀ (connect : String → Option TcpStream) (client : Client) content,
      handle_stdin_message connect client
          (ClientMessage.createDocument content) =
        some ({ client with doc := client.doc.updateText content },
          [Effect.send_outgoing (OutgoingMessage.documentData
            ((client.doc.updateText content).export_from default))]) ∧
      (client.doc.updateText content).oplog =
        client.doc.oplog ++ [DocOp.update content]) := by
  refine ⟨?_, ?_, ?_⟩
  · intro connect client index t d h
    exact ⟨by simp [handle_stdin_message, h],
           insertText_ok_oplog client.doc d index t h⟩
  · intro connect client index len d h
    exact ⟨by simp [handle_stdin_message, h],
           deleteText_ok_oplog client.doc d index len h⟩
  · intro connect client content
    exact ⟨rfl, rfl⟩

/-- Witness for C3: a concrete insert into the fresh empty document. -/
theorem change_mutate_then_broadcast_witness :
    handle_stdin_message (fun _ => none) (Client.new 0)
        (ClientMessage.change (Change.insert 0 ['h', 'i'])) =
      some ({ Client.new 0 with
                doc := ⟨['h', 'i'], [DocOp.insert 0 ['h', 'i']]⟩ },
        [Effect.send_outgoing (OutgoingMessage.documentData
          ((⟨['h', 'i'], [DocOp.insert 0 ['h', 'i']]⟩ : LoroDoc).export_from
            default))]) :=
  (change_mutate_then_broadcast.1 (fun _ => none) (Client.new 0) 0 ['h', 'i']
    ⟨['h', 'i'], [DocOp.insert 0 ['h', 'i']]⟩ rfl).1

/-- Claim C7 evaluation: the code, as written, panics when a dial fails —
with a failing connect oracle, handling AddPeer reaches the unwrap of the
connect result and the outcome of the handler is the panic value, not a
PeerConnectionError egress event (no such message kind even exists in the
protocol). -/
theorem add_peer_dial_failure_panics :
    handle_stdin_message (fun _ => none) (Client.new 0)
      (ClientMessage.addPeer "unreachable:9999") = none :=
  rfl

/-- Claim C8 evaluation: the code, as written, panics when the merge
engine rejects an operation — inserting at out-of-range index 5 into the
fresh empty document makes the handler unwrap the error of the engine, so the
outcome is the panic value, not a DocumentOperationError egress event
(no such message kind even exists in the protocol). -/
theorem out_of_range_change_panics :
    handle_stdin_message (fun _ => none) (Client.new 0)
      (ClientMessage.change (Change.insert 5 ['x'])) = none := by
  decide

/-- Claim C9: for every local Change or CreateDocument message the
coordinator handles successfully, the payload enqueued for broadcast is
the document state exported from the default (empty) version vector —
the full operation history since creation — not a delta since a previous
export. -/
theorem broadcast_payload_full_history :
    (∀ (connect : String → Option TcpStream) (client : Client) index t d,
      client.doc.insertText index t = .ok d →
        handle_stdin_message connect client
            (ClientMessage.change (Change.insert index t)) =
          some ({ client with doc := d },
            [Effect.send_outgoing (OutgoingMessage.documentData
              (d.export_from default))]) ∧
        d.export_from default = d.oplog) ∧
    (∀ (connect : String → Option TcpStream) (client : Client) index len d,
      client.doc.deleteText index len = .ok d →
        handle_stdin_message connect client
            (ClientMessage.change (Change.delete index len)) =
          some ({ client with doc := d },
            [Effect.send_outgoing (OutgoingMessage.documentData
              (d.export_from default))]) ∧
        d.export_from default = d.oplog) ∧
    (∀ (connect : String → Option TcpStream) (client : Client) content,
      handle_stdin_message connect client
          (ClientMessage.createDocument content) =
        some ({ client with doc := client.doc.updateText content },
          [Effect.send_outgoing (OutgoingMessage.documentData
            ((client.doc.updateText content).export_from default))]) ∧
      (client.doc.updateText content).export_from default =
        (client.doc.updateText content).oplog) := by
  refine ⟨?_, ?_, ?_⟩
  · intro connect client index t d h
    exact ⟨by simp [handle_stdin_message, h], rfl⟩
  · intro connect client index len d h
    exact ⟨by simp [handle_stdin_message, h], rfl⟩
  · intro connect client content
    exact ⟨rfl, rfl⟩

/-- Witness for C9: a concrete delete on a two-character document. -/
theorem broadcast_payload_full_history_witness :
    handle_stdin_message (fun _ => none)
        ⟨⟨['h', 'i'], [DocOp.insert 0 ['h', 'i']]⟩, 0⟩
        (ClientMessage.change (Change.delete 0 2)) =
      some ({ (⟨⟨['h', 'i'], [DocOp.insert 0 ['h', 'i']]⟩, 0⟩ : Client) with
                doc := ⟨[], [DocOp.insert 0 ['h', 'i'], DocOp.delete 0 2]⟩ },
        [Effect.send_outgoing (OutgoingMessage.documentData
          ((⟨[], [DocOp.insert 0 ['h', 'i'], DocOp.delete 0 2]⟩ : LoroDoc).export_from
            default))]) ∧
    (⟨[], [DocOp.insert 0 ['h', 'i'], DocOp.delete 0 2]⟩ : LoroDoc).export_from default =
      [DocOp.insert 0 ['h', 'i'], DocOp.delete 0 2] :=
  broadcast_payload_full_history.2.1 (fun _ => none)
    ⟨⟨['h', 'i'], [DocOp.insert 0 ['h', 'i']]⟩, 0⟩ 0 2
    ⟨[], [DocOp.insert 0 ['h', 'i'], DocOp.delete 0 2]⟩ rfl

/-- Helper for C5: registering a list of write halves, in order, onto an
existing pool appends them in registration order and sends nothing. -/
theorem outgoing_task_run_registrations (regs pool : List WriteSocket) :
    outgoing_task_run pool (regs.map OutgoingMessage.newSocket) =
      (pool ++ regs, []) := by
  induction regs generalizing pool with
  | nil => simp [outgoing_task_run]
  | cons r rest ih =>
      simp [outgoing_task_run, outgoing_task_step, ih]

/-- Claim C5: a broadcast sends the same encoded DocumentSync message
exactly once to every write half currently in the pool, in pool order,
and the pool lists the registered write halves in registration order. -/
theorem broadcast_fanout :
    (∀ (sockets : List WriteSocket) (data : Bytes),
      outgoing_task_step sockets (OutgoingMessage.documentData data) =
        (sockets,
         sockets.map fun socket => (socket, BackendMessage.documentSync data))) ∧
    (∀ regs : List WriteSocket,
      outgoing_task_run [] (regs.map OutgoingMessage.newSocket) = (regs, [])) := by
  refine ⟨fun sockets data => rfl, fun regs => ?_⟩
  simpa using outgoing_task_run_registrations regs []

/-- Helper for C6: the effect pattern shared by the accept path and the
dial path satisfies the registration-before-notification ordering. -/
theorem registrations_pattern_ordered (r : ReadSocket) (w : WriteSocket)
    (m : ClientMessage) :
    registrationsBeforePeerAdded
      [Effect.send_incoming_to r,
       Effect.send_outgoing (OutgoingMessage.newSocket w),
       Effect.send_stdout m] := by
  intro i hi
  fin_cases i
  · simp [isPeerAddedEmit] at hi
  · simp [isPeerAddedEmit] at hi
  · refine ⟨⟨⟨0, by norm_num⟩, by norm_num, rfl⟩, ⟨⟨1, by norm_num⟩, by norm_num, rfl⟩⟩

/-- Claim C6: on both the accept path and the dial path, the PeerAdded
egress event is emitted only after the read half has been registered
with the Inbound Sync Router and the write half with the Outbound Sync
Broadcaster. -/
theorem peer_added_after_registrations :
    (∀ (socket : TcpStream) (addr : String),
      registrationsBeforePeerAdded (accept_new_connection socket addr)) ∧
    (∀ (connect : String → Option TcpStream) (client : Client) (address : String)
        (c2 : Client) (effs : List Effect),
      handle_stdin_message connect client (ClientMessage.addPeer address) =
        some (c2, effs) →
      registrationsBeforePeerAdded effs) := by
  constructor
  · intro socket addr
    exact registrations_pattern_ordered _ _ _
  · intro connect client address c2 effs h
    cases hconn : connect address with
    | none => rw [handle_stdin_message, hconn] at h; cases h
    | some socket =>
        rw [handle_stdin_message, hconn] at h
        cases h
        exact registrations_pattern_ordered _ _ _

/-- Witness for C6 on both paths at concrete inputs. -/
theorem peer_added_after_registrations_witness :
    registrationsBeforePeerAdded (accept_new_connection ⟨5⟩ "peer:1234") ∧
    registrationsBeforePeerAdded
      [Effect.send_incoming_to ⟨⟨7⟩⟩,
       Effect.send_outgoing (OutgoingMessage.newSocket ⟨⟨7⟩⟩),
       Effect.send_stdout (ClientMessage.peerAdded "peer:1234")] :=
  ⟨peer_added_after_registrations.1 ⟨5⟩ "peer:1234",
   peer_added_after_registrations.2 (fun _ => some ⟨7⟩) (Client.new 0) "peer:1234"
     (Client.new 0) _ rfl⟩

/- ### Helper lemmas for the notifier walk (C4) -/

/-- Shifting by zero is the identity. -/
theorem shiftChange_zero : shiftChange 0 = id := by
  funext c
  cases c <;> simp [shiftChange]

/-- Shifts compose additively. -/
theorem shiftChange_comp (a b : Nat) :
    shiftChange a ∘ shiftChange b = shiftChange (a + b) := by
  funext c
  cases c <;> simp [shiftChange, Nat.add_assoc]

/-- The emission of a span at a shifted offset. -/
theorem specEmit_shift (a off : Nat) (d : TextDelta) :
    (specEmit off d).map (shiftChange a) = specEmit (a + off) d := by
  cases d <;> simp [specEmit, shiftChange]

/-- The running offset over a cons. -/
theorem retainOffset_cons (d : TextDelta) (l : List TextDelta) :
    retainOffset (d :: l) = retainLen d + retainOffset l := by
  simp [retainOffset]

/-- Unfolding the spec-side closed form over a leading span: the head
emits at offset zero, and every emission of the tail is shifted by the
retain length of the head. -/
theorem specNotifierChanges_cons (d : TextDelta) (rest : List TextDelta) :
    specNotifierChanges (d :: rest) =
      (specEmit 0 d).toList ++
        (specNotifierChanges rest).map (shiftChange (retainLen d)) := by
  have htail :
      List.filterMap
          (fun k => specEmit (retainOffset ((d :: rest).take k))
            ((d :: rest).getD k (.retain 0)))
          ((List.range rest.length).map Nat.succ) =
        (specNotifierChanges rest).map (shiftChange (retainLen d)) := by
    rw [List.filterMap_map, specNotifierChanges, List.map_filterMap]
    refine List.filterMap_congr fun k hk => ?_
    simp [Function.comp, retainOffset_cons, specEmit_shift]
  rw [specNotifierChanges, List.length_cons, List.range_succ_eq_map,
    List.filterMap_cons, htail]
  cases d <;> simp [specEmit, retainOffset]

/-- The accumulated vector only collects emissions at its end: the walk
with accumulator `acc` is `acc` followed by the walk with an empty
accumulator. -/
theorem processDiffs_append (deltas : List TextDelta) (i : Nat)
    (acc : List Change) :
    processDiffs deltas i acc = acc ++ processDiffs deltas i [] := by
  induction deltas generalizing i acc with
  | nil => simp [processDiffs]
  | cons d rest ih =>
      cases d with
      | retain r => exact ih (i + r) acc
      | insert s =>
          show processDiffs rest i (acc ++ [Change.insert i s]) =
            acc ++ processDiffs rest i ([] ++ [Change.insert i s])
          rw [ih i (acc ++ [Change.insert i s]),
            ih i ([] ++ [Change.insert i s])]
          simp
      | delete n =>
          show processDiffs rest i (acc ++ [Change.delete i n]) =
            acc ++ processDiffs rest i ([] ++ [Change.delete i n])
          rw [ih i (acc ++ [Change.delete i n]),
            ih i ([] ++ [Change.delete i n])]
          simp

/-- The implemented span walk starting at offset `off` is the spec-side
closed form with every emitted index shifted by `off`. -/
theorem processDiffs_eq_spec (deltas : List TextDelta) (off : Nat) :
    processDiffs deltas off [] =
      (specNotifierChanges deltas).map (shiftChange off) := by
  induction deltas generalizing off with
  | nil => simp [processDiffs, specNotifierChanges]
  | cons d rest ih =>
      cases d with
      | retain r =>
          show processDiffs rest (off + r) [] = _
          rw [ih, specNotifierChanges_cons]
          simp [specEmit, retainLen, List.map_map, shiftChange_comp]
      | insert s =>
          show processDiffs rest off ([] ++ [Change.insert off s]) = _
          rw [processDiffs_append, ih, specNotifierChanges_cons]
          simp [specEmit, retainLen, List.map_map, shiftChange_comp, shiftChange]
      | delete n =>
          show processDiffs rest off ([] ++ [Change.delete off n]) = _
          rw [processDiffs_append, ih, specNotifierChanges_cons]
          simp [specEmit, retainLen, List.map_map, shiftChange_comp, shiftChange]

/-- The fold step on a text-diff event succeeds and walks its spans. -/
theorem notifierFoldStep_text (changes : List Change) (ds : List TextDelta) :
    notifierFoldStep changes (ContainerDiffEvent.mk (Diff.text ds)) =
      some (processDiffs ds 0 changes) :=
  rfl

/-- The fold of the callback over a list of text-diff events collects the
per-event walks, in event order, after the accumulator. -/
theorem callback_fold_text (dss : List (List TextDelta)) (acc : List Change) :
    List.foldlM notifierFoldStep acc
        (dss.map fun ds => ContainerDiffEvent.mk (Diff.text ds)) =
      some (acc ++ (dss.map fun ds => processDiffs ds 0 []).flatten) := by
  induction dss generalizing acc with
  | nil => simp
  | cons ds rest ih =>
      rw [List.map_cons, List.foldlM_cons, notifierFoldStep_text]
      simp only [Option.bind_eq_bind, Option.some_bind]
      rw [ih (processDiffs ds 0 acc), processDiffs_append ds 0 acc]
      simp

/-- Claim C4: for every import-triggered merge whose events carry
retain/insert/delete span sequences, the Change Notifier emits, in
within-merge span order, exactly the changes of the spec-side walk: a
retain span only advances the running offset by its length, an insert
span emits an insert at the accumulated offset (the sum of the retain
lengths before it), and a delete span emits a delete at that offset. -/
theorem notifier_walk_refines_spec (trig : EventTriggerKind)
    (dss : List (List TextDelta)) (h : trig.is_import = true) :
    add_doc_change_subsription
        ⟨trig, dss.map fun ds => ContainerDiffEvent.mk (Diff.text ds)⟩ =
      some (((dss.map specNotifierChanges).flatten).map
        fun c => ClientMessage.change c) := by
  unfold add_doc_change_subsription
  rw [h]
  simp only [Bool.true_eq_false, if_false]
  rw [callback_fold_text]
  simp only [Option.bind_eq_bind, Option.some_bind, List.nil_append]
  have hmap : (dss.map fun ds => processDiffs ds 0 []) =
      dss.map specNotifierChanges := by
    refine List.map_congr_left fun ds _ => ?_
    rw [processDiffs_eq_spec, shiftChange_zero, List.map_id]
  rw [hmap]
  rfl

/-- Witness for C4 at a concrete import-triggered merge with one text
diff of all three span kinds. -/
theorem notifier_walk_refines_spec_witness :
    add_doc_change_subsription
        ⟨.importTrigger,
         [[TextDelta.retain 2, TextDelta.insert ['a'], TextDelta.delete 3]].map
           fun ds => ContainerDiffEvent.mk (Diff.text ds)⟩ =
      some ((([[TextDelta.retain 2, TextDelta.insert ['a'],
          TextDelta.delete 3]].map specNotifierChanges).flatten).map
        fun c => ClientMessage.change c) :=
  notifier_walk_refines_spec .importTrigger
    [[TextDelta.retain 2, TextDelta.insert ['a'], TextDelta.delete 3]] rfl

/- ### Helper lemmas for the text-diff assumption (C10) -/

/-- When every event carries a text diff, the fold of the callback never
reaches the failure branch of the diff extraction. -/
theorem callback_fold_all_text_isSome (events : List ContainerDiffEvent)
    (acc : List Change)
    (h : ∀ e ∈ events, (e.diff.as_text).isSome = true) :
    (List.foldlM notifierFoldStep acc events).isSome = true := by
  induction events generalizing acc with
  | nil => simp
  | cons e rest ih =>
      have he := h e (by simp)
      cases hd : e.diff.as_text with
      | none => rw [hd] at he; cases he
      | some ds =>
          rw [List.foldlM_cons,
            show notifierFoldStep acc e = some (processDiffs ds 0 acc) by
              simp [notifierFoldStep, hd]]
          simp only [Option.bind_eq_bind, Option.some_bind]
          exact ih (processDiffs ds 0 acc) fun x hx => h x (by simp [hx])

/-- When some event carries a non-text diff, the fold of the callback hits
the unwrap of the failed diff extraction. -/
theorem callback_fold_nontext_none (events : List ContainerDiffEvent)
    (acc : List Change)
    (h : ∃ e ∈ events, e.diff.as_text = none) :
    List.foldlM notifierFoldStep acc events = none := by
  induction events generalizing acc with
  | nil => simp at h
  | cons e rest ih =>
      rcases h with ⟨x, hx, hnone⟩
      rcases List.mem_cons.mp hx with rfl | hmem
      · rw [List.foldlM_cons,
          show notifierFoldStep acc x = none by simp [notifierFoldStep, hnone]]
        rfl
      · cases hd : e.diff.as_text with
        | none =>
            rw [List.foldlM_cons,
              show notifierFoldStep acc e = none by simp [notifierFoldStep, hd]]
            rfl
        | some ds =>
            rw [List.foldlM_cons,
              show notifierFoldStep acc e = some (processDiffs ds 0 acc) by
                simp [notifierFoldStep, hd]]
            simp only [Option.bind_eq_bind, Option.some_bind]
            exact ih (processDiffs ds 0 acc) ⟨x, hmem, hnone⟩

/-- Claim C10: the subscription callback assumes every event carries a
text diff: under the precondition that only text diffs are delivered,
the failure branch of the diff extraction is unreachable (the callback
never panics); and on an import-triggered merge carrying an event whose
diff is not a text diff, the callback panics. -/
theorem callback_text_diff_assumption :
    (∀ change : DiffEvent,
      (∀ e ∈ change.events, (e.diff.as_text).isSome = true) →
      (add_doc_change_subsription change).isSome = true) ∧
    (∀ change : DiffEvent,
      change.triggered_by.is_import = true →
      (∃ e ∈ change.events, e.diff.as_text = none) →
      add_doc_change_subsription change = none) := by
  constructor
  · intro change h
    unfold add_doc_change_subsription
    cases himp : change.triggered_by.is_import with
    | false => simp
    | true =>
        simp only [Bool.true_eq_false, if_false]
        cases hf : List.foldlM notifierFoldStep [] change.events with
        | none =>
            have := callback_fold_all_text_isSome change.events [] h
            rw [hf] at this
            cases this
        | some changes => simp [Option.bind_eq_bind, hf]
  · intro change himp h
    unfold add_doc_change_subsription
    rw [himp]
    simp only [Bool.true_eq_false, if_false]
    rw [callback_fold_nontext_none change.events [] h]
    rfl

/-- Witness for C10: an all-text import-triggered merge does not panic,
and an import-triggered merge with a non-text diff panics. -/
theorem callback_text_diff_assumption_witness :
    ((∀ e ∈ (DiffEvent.mk .importTrigger
        [⟨Diff.text [TextDelta.retain 1]⟩]).events,
      (e.diff.as_text).isSome = true) ∧
     (add_doc_change_subsription
        ⟨.importTrigger, [⟨Diff.text [TextDelta.retain 1]⟩]⟩).isSome = true) ∧
    ((DiffEvent.mk .importTrigger [⟨Diff.other⟩]).triggered_by.is_import = true ∧
     (∃ e ∈ (DiffEvent.mk .importTrigger [⟨Diff.other⟩]).events,
        e.diff.as_text = none) ∧
     add_doc_change_subsription ⟨.importTrigger, [⟨Diff.other⟩]⟩ = none) :=
  ⟨⟨by decide,
    callback_text_diff_assumption.1
      ⟨.importTrigger, [⟨Diff.text [TextDelta.retain 1]⟩]⟩ (by decide)⟩,
   ⟨by decide, by decide,
    callback_text_diff_assumption.2 ⟨.importTrigger, [⟨Diff.other⟩]⟩
      (by decide) (by decide)⟩⟩

end C3edit
